import Mathlib

/-!
Shallow embedding of the dynamic model-residency manager of the pdfc
repository (src/vllm/model_manager.py) and of the HTTP-facing pieces of
src/vllm/dynamic_server.py that the verified properties talk about.

Conventions of the embedding:
* Python dicts keyed by strings become association lists kept in insertion
  order (`setKey` updates in place or appends, exactly like dict assignment).
* The engine handle `self.vllm_engine` becomes `Option VllmEngine`.
* External failures of the inference runtime (engine teardown during unload,
  `AsyncLLMEngine.from_engine_args` during load) are injected through the
  boolean parameters `unload_ok` / `load_ok`: `false` means the corresponding
  engine interaction raises, sending the source into its `except` branch.
* Each operation additionally returns the list of observable events it
  performed (state-map writes and engine construction attempts), in program
  order, so that temporal properties can be stated about a single call.
* The bodies below are the bodies of the `with self.lock:` critical sections.
  The lock object itself (a non-reentrant `threading.Lock`) is modelled
  separately by the `..._with_lock` functions further down, where `none`
  means the call blocks forever acquiring `self.lock`.
-/

/-- `ModelState` enum of model_manager.py. -/
inductive ModelState where
  | unloaded
  | loading
  | loaded
  | unloading
  | error
deriving DecidableEq, Repr

/-- `TaskType` enum of model_manager.py. -/
inductive TaskType where
  | content_transformation
  | translation
deriving DecidableEq, Repr

instance : BEq TaskType := ⟨fun a b => decide (a = b)⟩

instance : LawfulBEq TaskType where
  rfl := by intro a; simp [BEq.beq]
  eq_of_beq := by intro a b h; simpa [BEq.beq] using h

/-- The `.value` attribute of a `TaskType` member. -/
def TaskType.value : TaskType → String
  | .content_transformation => "content_transformation"
  | .translation => "translation"

/-- `ModelConfig` dataclass of model_manager.py.  The two float fields are
represented as rationals (their concrete values are exact decimals). -/
structure ModelConfig where
  name : String
  «alias» : String
  task_type : TaskType
  estimated_vram_gb : ℚ
  tensor_parallel_size : Nat := 2
  max_model_len : Nat := 8192
  gpu_memory_utilization : ℚ := 9 / 10
deriving DecidableEq, Repr

/-- The opaque engine handle produced by `AsyncLLMEngine.from_engine_args`;
only the model it was built for is observable in the embedding. -/
structure VllmEngine where
  model : String
deriving DecidableEq, Repr

/-- Mutable fields of `DynamicModelManager` (`__init__`): the registry dict,
the current model key, the per-key state dict and the engine handle. -/
structure DynamicModelManager where
  models : List (String × ModelConfig)
  current_model : Option String
  model_states : List (String × ModelState)
  vllm_engine : Option VllmEngine
deriving DecidableEq, Repr

/-- Python dict assignment `d[k] = v` on an insertion-ordered association
list: overwrite in place when the key is present, append otherwise. -/
def setKey {β : Type} (l : List (String × β)) (k : String) (v : β) :
    List (String × β) :=
  match l with
  | [] => [(k, v)]
  | (k', v') :: rest =>
      if k' = k then (k, v) :: rest else (k', v') :: setKey rest k v

/-- Python dict lookup `d[k]` / `d.get(k)`: the value stored under the key,
if any. -/
def getKey? {β : Type} : List (String × β) → String → Option β
  | [], _ => none
  | (k, v) :: rest, a => if k = a then some v else getKey? rest a

/-- Observable actions of a manager operation, in program order. -/
inductive Event where
  /-- a write `self.model_states[key] = state` -/
  | stateChange (key : String) (state : ModelState)
  /-- the call to `AsyncLLMEngine.from_engine_args` for `key` -/
  | engineCreate (key : String)
deriving DecidableEq, Repr

/-- Number of engine-construction attempts recorded in a trace. -/
def countEngineCreates (tr : List Event) : Nat :=
  (tr.filter fun e =>
    match e with
    | Event.engineCreate _ => true
    | _ => false).length

/-- `DynamicModelManager.unload_current_model` (body of its critical
section).  `unload_ok = false` injects a failure of the engine teardown,
taking the source to its `except` branch at lines 146-148, which logs and
returns `False` with the state map left at `UNLOADING`. -/
def unload_current_model (unload_ok : Bool) (m : DynamicModelManager) :
    Bool × DynamicModelManager × List Event :=
  match m.current_model with
  | none => (true, m, [])
  | some cur =>
      let m1 : DynamicModelManager :=
        { m with model_states := setKey m.model_states cur ModelState.unloading }
      if unload_ok then
        let m2 : DynamicModelManager := { m1 with vllm_engine := none }
        let m3 : DynamicModelManager :=
          { m2 with
            model_states := setKey m2.model_states cur ModelState.unloaded,
            current_model := none }
        (true, m3,
          [Event.stateChange cur ModelState.unloading,
           Event.stateChange cur ModelState.unloaded])
      else
        (false, m1, [Event.stateChange cur ModelState.unloading])

/-- `DynamicModelManager.load_model` (body of its critical section).
`load_ok = false` injects a failure of `AsyncLLMEngine.from_engine_args`,
taking the source to its `except` branch at lines 200-203. -/
def load_model (unload_ok load_ok : Bool) (model_key : String)
    (m : DynamicModelManager) : Bool × DynamicModelManager × List Event :=
  match getKey? m.models model_key with
  | none => (false, m, [])
  | some model_config =>
      if m.current_model = some model_key ∧
          getKey? m.model_states model_key = some ModelState.loaded then
        (true, m, [])
      else
        let m1 : DynamicModelManager :=
          { m with model_states := setKey m.model_states model_key ModelState.loading }
        let r2 : Bool × DynamicModelManager × List Event :=
          match m1.current_model with
          | some cur =>
              if cur ≠ model_key then unload_current_model unload_ok m1
              else (true, m1, [])
          | none => (true, m1, [])
        if r2.1 = false then
          (false, r2.2.1, Event.stateChange model_key ModelState.loading :: r2.2.2)
        else
          if load_ok then
            (true,
             { r2.2.1 with
               vllm_engine := some ⟨model_config.name⟩,
               current_model := some model_key,
               model_states := setKey r2.2.1.model_states model_key ModelState.loaded },
             Event.stateChange model_key ModelState.loading :: r2.2.2 ++
               [Event.engineCreate model_key,
                Event.stateChange model_key ModelState.loaded])
          else
            (false,
             { r2.2.1 with
               model_states := setKey r2.2.1.model_states model_key ModelState.error },
             Event.stateChange model_key ModelState.loading :: r2.2.2 ++
               [Event.engineCreate model_key,
                Event.stateChange model_key ModelState.error])

/-- `DynamicModelManager.ensure_model_loaded`: resolve the first registered
key whose config serves `task_type`, then delegate to `load_model` unless the
model is already current and loaded. -/
def ensure_model_loaded (unload_ok load_ok : Bool) (task_type : TaskType)
    (m : DynamicModelManager) : Bool × DynamicModelManager × List Event :=
  match m.models.find? (fun kv => kv.2.task_type == task_type) with
  | none => (false, m, [])
  | some kc =>
      if m.current_model ≠ some kc.1 ∨
          getKey? m.model_states kc.1 ≠ some ModelState.loaded then
        load_model unload_ok load_ok kc.1 m
      else
        (true, m, [])

/-- The content-transformation entry registered by `_register_models`. -/
def content_model : ModelConfig :=
  { name := "Qwen/Qwen2.5-VL-32B-Instruct"
    «alias» := "content-transformer"
    task_type := TaskType.content_transformation
    estimated_vram_gb := 32 }

/-- The translation entry registered by `_register_models`. -/
def translation_model : ModelConfig :=
  { name := "Qwen/Qwen2.5-32B-Instruct"
    «alias» := "translator"
    task_type := TaskType.translation
    estimated_vram_gb := 30 }

/-- The manager as built by `__init__` + `_register_models`: both keys
registered, all states `UNLOADED`, no current model, no engine. -/
def initManager : DynamicModelManager :=
  { models :=
      [("content_transformation", content_model), ("translation", translation_model)]
    current_model := none
    model_states :=
      [("content_transformation", ModelState.unloaded),
       ("translation", ModelState.unloaded)]
    vllm_engine := none }

/-- Helper for the lock-aware semantics: the tail of `load_model` after the
optional eviction, i.e. engine construction and state update (source lines
175-203), without the event trace. -/
def finishLoad (load_ok : Bool) (model_key : String) (model_config : ModelConfig)
    (m2 : DynamicModelManager) : Bool × DynamicModelManager :=
  if load_ok then
    (true,
     { m2 with
       vllm_engine := some ⟨model_config.name⟩,
       current_model := some model_key,
       model_states := setKey m2.model_states model_key ModelState.loaded })
  else
    (false,
     { m2 with model_states := setKey m2.model_states model_key ModelState.error })

/-- `unload_current_model` with the non-reentrant `threading.Lock` modelled.
`lock_held = true` means the calling thread already holds `self.lock`; the
result `none` means the call never returns, because `with self.lock:` blocks
forever on a lock the same thread holds and nothing can release it.  The
early return for `current_model = None` happens before the lock is taken. -/
def unload_current_model_with_lock (lock_held unload_ok : Bool)
    (m : DynamicModelManager) : Option (Bool × DynamicModelManager) :=
  match m.current_model with
  | none => some (true, m)
  | some _ =>
      if lock_held then none
      else
        some ((unload_current_model unload_ok m).1,
              (unload_current_model unload_ok m).2.1)

/-- `load_model` with the non-reentrant `threading.Lock` modelled.  The body
runs with the lock held, so the nested `unload_current_model` call on the
swap path re-acquires `self.lock` and the whole call blocks forever
(`none`).  The unknown-key early return happens before the lock is taken. -/
def load_model_with_lock (lock_held unload_ok load_ok : Bool)
    (model_key : String) (m : DynamicModelManager) :
    Option (Bool × DynamicModelManager) :=
  match getKey? m.models model_key with
  | none => some (false, m)
  | some model_config =>
      if lock_held then none
      else
        if m.current_model = some model_key ∧
            getKey? m.model_states model_key = some ModelState.loaded then
          some (true, m)
        else
          let m1 : DynamicModelManager :=
            { m with model_states := setKey m.model_states model_key ModelState.loading }
          match m1.current_model with
          | some cur =>
              if cur ≠ model_key then
                match unload_current_model_with_lock true unload_ok m1 with
                | none => none
                | some (false, m2) => some (false, m2)
                | some (true, m2) => some (finishLoad load_ok model_key model_config m2)
              else some (finishLoad load_ok model_key model_config m1)
          | none => some (finishLoad load_ok model_key model_config m1)

/-- `ensure_model_loaded` with the lock modelled; the method itself takes no
lock, it only delegates to `load_model`. -/
def ensure_model_loaded_with_lock (lock_held unload_ok load_ok : Bool)
    (task_type : TaskType) (m : DynamicModelManager) :
    Option (Bool × DynamicModelManager) :=
  match m.models.find? (fun kv => kv.2.task_type == task_type) with
  | none => some (false, m)
  | some kc =>
      if m.current_model ≠ some kc.1 ∨
          getKey? m.model_states kc.1 ≠ some ModelState.loaded then
        load_model_with_lock lock_held unload_ok load_ok kc.1 m
      else
        some (true, m)

/-- Operations a client of the manager can issue, with injected engine
failures: the arguments of `load_model`, `unload_current_model` and
`ensure_model_loaded`. -/
inductive ManagerOp where
  | loadOp (unload_ok load_ok : Bool) (key : String)
  | unloadOp (unload_ok : Bool)
  | ensureOp (unload_ok load_ok : Bool) (t : TaskType)
deriving DecidableEq, Repr

/-- Resulting manager state of one operation. -/
def applyOp (m : DynamicModelManager) : ManagerOp → DynamicModelManager
  | .loadOp u l k => (load_model u l k m).2.1
  | .unloadOp u => (unload_current_model u m).2.1
  | .ensureOp u l t => (ensure_model_loaded u l t m).2.1

/-- Manager state after a sequence of operations starting from the freshly
constructed manager. -/
def runOps (ops : List ManagerOp) : DynamicModelManager :=
  ops.foldl applyOp initManager

/-- Capacity invariant: at most one key maps to `LOADED`. -/
def AtMostOneLoaded (m : DynamicModelManager) : Prop :=
  ∀ k1 k2, getKey? m.model_states k1 = some ModelState.loaded →
    getKey? m.model_states k2 = some ModelState.loaded → k1 = k2

/-- Strengthened invariant used to prove `AtMostOneLoaded`: every loaded key
is the current model. -/
def LoadedIsCurrent (m : DynamicModelManager) : Prop :=
  ∀ k, getKey? m.model_states k = some ModelState.loaded →
    m.current_model = some k

/-- Python `str.lower()` on one character, restricted to the alphabets the
classifier keywords use: ASCII letters and the Cyrillic block (А-Я, Ё).
All other characters (digits, punctuation, CJK, already-lowercase letters)
are fixed points, as in Python. -/
def pyLower (c : Char) : Char :=
  if 'A' ≤ c ∧ c ≤ 'Z' then Char.ofNat (c.toNat + 32)
  else if 0x410 ≤ c.toNat ∧ c.toNat ≤ 0x42F then Char.ofNat (c.toNat + 32)
  else if c.toNat = 0x401 then Char.ofNat 0x451
  else c

/-- Python `" ".join(l)`: empty for no pieces, otherwise the pieces with a
single space between consecutive ones. -/
def joinSp : List (List Char) → List Char
  | [] => []
  | [l] => l
  | l :: ls => l ++ ' ' :: joinSp ls

/-- Whether `kw` occurs at the start of `s`. -/
def startsWith : List Char → List Char → Bool
  | [], _ => true
  | _ :: _, [] => false
  | a :: as, b :: bs => a == b && startsWith as bs

/-- Python substring containment `kw in s`. -/
def hasSubstr (kw : List Char) : List Char → Bool
  | [] => kw.isEmpty
  | s@(_ :: rest) => startsWith kw s || hasSubstr kw rest

/-- `content_keywords` of `determine_task_type_from_messages`. -/
def content_keywords : List String :=
  ["преобразуй", "markdown", "структура", "таблица",
   "pdf", "документ", "извлечение", "форматирование"]

/-- `translation_keywords` of `determine_task_type_from_messages`. -/
def translation_keywords : List String :=
  ["переведи", "translate", "перевод", "translation",
   "русский", "english", "中文", "язык", "language"]

/-- `sum(1 for keyword in kws if keyword in text)`: the number of keywords of
`kws` occurring in `text`. -/
def keywordScore (kws : List String) (text : List Char) : Nat :=
  (kws.filter fun kw => hasSubstr kw.data text).length

/-- `ChatMessage` pydantic model of dynamic_server.py. -/
structure ChatMessage where
  role : String
  content : String
deriving DecidableEq, Repr

/-- `determine_task_type_from_messages` of dynamic_server.py: join the
lower-cased message contents with spaces, score both keyword sets by
containment, return TRANSLATION only when its score is strictly greater. -/
def determine_task_type_from_messages (messages : List ChatMessage) : TaskType :=
  let combined_text := joinSp (messages.map fun msg => msg.content.data.map pyLower)
  let content_score := keywordScore content_keywords combined_text
  let translation_score := keywordScore translation_keywords combined_text
  if translation_score > content_score then TaskType.translation
  else TaskType.content_transformation

/-- `ChatCompletionRequest` pydantic model of dynamic_server.py, with the
same field defaults; float parameters as exact rationals. -/
structure ChatCompletionRequest where
  model : String
  messages : List ChatMessage
  temperature : ℚ := 1 / 10
  max_tokens : Nat := 4096
  top_p : ℚ := 9 / 10
  top_k : Nat := 50
  stream : Bool := false
  task_type : Option String := none
deriving DecidableEq, Repr

/-- The `TaskType(value)` enum constructor: matches a member by its string
value, `ValueError` (here `none`) otherwise. -/
def TaskType.ofValue (s : String) : Option TaskType :=
  if s = "content_transformation" then some TaskType.content_transformation
  else if s = "translation" then some TaskType.translation
  else none

/-- Lines 118-127 of `create_chat_completion`: use the explicit `task_type`
hint when it is present (non-empty, Python truthiness) and parses as a
`TaskType` member; any `ValueError` is swallowed and the keyword classifier
decides instead. -/
def select_task_type (hint : Option String) (messages : List ChatMessage) :
    TaskType :=
  let parsed : Option TaskType :=
    match hint with
    | some s => if s = "" then none else TaskType.ofValue s
    | none => none
  match parsed with
  | some t => t
  | none => determine_task_type_from_messages messages

/-- `fastapi.HTTPException`: a status code plus a detail string. -/
structure HTTPError where
  status_code : Nat
  detail : String
deriving DecidableEq, Repr

/-- What the HTTP client of `create_chat_completion` observes. -/
inductive HandlerResult where
  /-- the 200 response built at lines 194-221, carrying the generated text -/
  | success (content : String)
  /-- an `HTTPException` escaping the handler -/
  | failure (status_code : Nat) (detail : String)
deriving DecidableEq, Repr

/-- `create_chat_completion` of dynamic_server.py.  `gen_output` stands for
the outcome of `vllm_engine.generate` (`none`: no final output).  The whole
body runs inside `try:`; every `HTTPException` raised in it (including the
503s of lines 134 and 141) is an `Exception`, so it is caught by the blanket
`except Exception` at line 223 and re-raised as
`HTTPException(500, "Ошибка генерации: " + str(e))`. -/
def create_chat_completion (unload_ok load_ok : Bool) (gen_output : Option String)
    (req : ChatCompletionRequest) (m : DynamicModelManager) :
    HandlerResult × DynamicModelManager :=
  let task_type := select_task_type req.task_type req.messages
  let r := ensure_model_loaded unload_ok load_ok task_type m
  let m1 := r.2.1
  let inner : Except HTTPError String :=
    if r.1 = false then
      Except.error ⟨503, "Не удалось загрузить модель для задачи " ++ task_type.value⟩
    else if m1.vllm_engine = none then
      Except.error ⟨503, "vLLM engine недоступен"⟩
    else
      match gen_output with
      | none => Except.error ⟨500, "No output generated"⟩
      | some text => Except.ok text
  match inner with
  | Except.ok text => (HandlerResult.success text, m1)
  | Except.error e =>
      (HandlerResult.failure 500
        ("Ошибка генерации: " ++ toString e.status_code ++ ": " ++ e.detail), m1)


/-- The classifier as the specification words it: concatenate the message
contents (space-separated, as the source joins them), lower-case the result,
count how many keywords of each fixed set occur, return the task type whose
count is strictly greater, content transformation on a tie. -/
def classify_spec (messages : List ChatMessage) : TaskType :=
  let combined := (joinSp (messages.map fun msg => msg.content.data)).map pyLower
  let content_score := keywordScore content_keywords combined
  let translation_score := keywordScore translation_keywords combined
  if translation_score > content_score then TaskType.translation
  else TaskType.content_transformation

/-- The manager state right after the startup preload performed by
`initialize_model_manager` (a successful `load_model("content_transformation")`
from the fresh manager). -/
def managerAfterPreload : DynamicModelManager :=
  (load_model true true "content_transformation" initManager).2.1

theorem getKey?_setKey {β : Type} (l : List (String × β)) (k a : String) (v : β) :
    getKey? (setKey l k v) a = if a = k then some v else getKey? l a := by
  induction l with
  | nil =>
      by_cases h : a = k
      · simp [setKey, getKey?, h]
      · simp [setKey, getKey?, h, Ne.symm h]
  | cons p t ih =>
      obtain ⟨b, w⟩ := p
      by_cases hbk : b = k
      · subst hbk
        by_cases h : a = b
        · simp [setKey, getKey?, h]
        · simp [setKey, getKey?, h, Ne.symm h]
      · by_cases hba : b = a
        · subst hba
          simp [setKey, getKey?, hbk, Ne.symm hbk, ih]
        · simp [setKey, getKey?, hbk, hba, ih]

theorem unload_current_model_none (u : Bool) (m : DynamicModelManager)
    (h : m.current_model = none) : unload_current_model u m = (true, m, []) := by
  unfold unload_current_model
  rw [h]

theorem unload_current_model_ok (cur : String) (m : DynamicModelManager)
    (h : m.current_model = some cur) :
    unload_current_model true m =
      (true,
       { m with
         model_states :=
           setKey (setKey m.model_states cur ModelState.unloading) cur ModelState.unloaded,
         current_model := none,
         vllm_engine := none },
       [Event.stateChange cur ModelState.unloading,
        Event.stateChange cur ModelState.unloaded]) := by
  unfold unload_current_model
  rw [h]
  rfl

theorem unload_current_model_fail (cur : String) (m : DynamicModelManager)
    (h : m.current_model = some cur) :
    unload_current_model false m =
      (false,
       { m with model_states := setKey m.model_states cur ModelState.unloading },
       [Event.stateChange cur ModelState.unloading]) := by
  unfold unload_current_model
  rw [h]
  rfl


theorem load_model_unknown (u l : Bool) (key : String) (m : DynamicModelManager)
    (h : getKey? m.models key = none) :
    load_model u l key m = (false, m, []) := by
  unfold load_model
  rw [h]

theorem load_model_fastpath (u l : Bool) (key : String) (m : DynamicModelManager)
    (cfg : ModelConfig) (hreg : getKey? m.models key = some cfg)
    (hcur : m.current_model = some key)
    (hst : getKey? m.model_states key = some ModelState.loaded) :
    load_model u l key m = (true, m, []) := by
  unfold load_model
  rw [hreg]
  dsimp only
  rw [if_pos ⟨hcur, hst⟩]

theorem load_model_no_swap_ok (u : Bool) (key : String) (m : DynamicModelManager)
    (cfg : ModelConfig) (hreg : getKey? m.models key = some cfg)
    (hnoswap : m.current_model = none ∨ m.current_model = some key)
    (hfast : ¬(m.current_model = some key ∧
      getKey? m.model_states key = some ModelState.loaded)) :
    load_model u true key m =
      (true,
       { m with
         model_states :=
           setKey (setKey m.model_states key ModelState.loading) key ModelState.loaded,
         current_model := some key,
         vllm_engine := some ⟨cfg.name⟩ },
       [Event.stateChange key ModelState.loading, Event.engineCreate key,
        Event.stateChange key ModelState.loaded]) := by
  unfold load_model
  rw [hreg]
  dsimp only
  rw [if_neg hfast]
  rcases hnoswap with hcur | hcur
  · rw [hcur]
    rfl
  · rw [hcur]
    dsimp only
    rw [if_neg (show ¬key ≠ key from fun h => h rfl)]
    rfl

theorem load_model_no_swap_fail (u : Bool) (key : String) (m : DynamicModelManager)
    (cfg : ModelConfig) (hreg : getKey? m.models key = some cfg)
    (hnoswap : m.current_model = none ∨ m.current_model = some key)
    (hfast : ¬(m.current_model = some key ∧
      getKey? m.model_states key = some ModelState.loaded)) :
    load_model u false key m =
      (false,
       { m with
         model_states :=
           setKey (setKey m.model_states key ModelState.loading) key ModelState.error },
       [Event.stateChange key ModelState.loading, Event.engineCreate key,
        Event.stateChange key ModelState.error]) := by
  unfold load_model
  rw [hreg]
  dsimp only
  rw [if_neg hfast]
  rcases hnoswap with hcur | hcur
  · rw [hcur]
    rfl
  · rw [hcur]
    dsimp only
    rw [if_neg (show ¬key ≠ key from fun h => h rfl)]
    rfl

theorem load_model_swap_unload_fail (l : Bool) (key cur : String)
    (m : DynamicModelManager) (cfg : ModelConfig)
    (hreg : getKey? m.models key = some cfg)
    (hcur : m.current_model = some cur) (hne : cur ≠ key) :
    load_model false l key m =
      (false,
       { m with
         model_states :=
           setKey (setKey m.model_states key ModelState.loading) cur ModelState.unloading },
       [Event.stateChange key ModelState.loading,
        Event.stateChange cur ModelState.unloading]) := by
  have hfast : ¬(m.current_model = some key ∧
      getKey? m.model_states key = some ModelState.loaded) := by
    rintro ⟨h1, -⟩
    rw [hcur] at h1
    exact hne (Option.some.inj h1)
  unfold load_model
  rw [hreg]
  dsimp only
  rw [if_neg hfast, hcur]
  dsimp only
  rw [if_pos hne,
    unload_current_model_fail cur
      ⟨m.models, some cur, setKey m.model_states key ModelState.loading, m.vllm_engine⟩ rfl]
  rfl

theorem load_model_swap_ok (key cur : String) (m : DynamicModelManager)
    (cfg : ModelConfig) (hreg : getKey? m.models key = some cfg)
    (hcur : m.current_model = some cur) (hne : cur ≠ key) :
    load_model true true key m =
      (true,
       { m with
         model_states :=
           setKey (setKey (setKey (setKey m.model_states key ModelState.loading)
             cur ModelState.unloading) cur ModelState.unloaded) key ModelState.loaded,
         current_model := some key,
         vllm_engine := some ⟨cfg.name⟩ },
       [Event.stateChange key ModelState.loading,
        Event.stateChange cur ModelState.unloading,
        Event.stateChange cur ModelState.unloaded,
        Event.engineCreate key,
        Event.stateChange key ModelState.loaded]) := by
  have hfast : ¬(m.current_model = some key ∧
      getKey? m.model_states key = some ModelState.loaded) := by
    rintro ⟨h1, -⟩
    rw [hcur] at h1
    exact hne (Option.some.inj h1)
  unfold load_model
  rw [hreg]
  dsimp only
  rw [if_neg hfast, hcur]
  dsimp only
  rw [if_pos hne,
    unload_current_model_ok cur
      ⟨m.models, some cur, setKey m.model_states key ModelState.loading, m.vllm_engine⟩ rfl]
  rfl

theorem load_model_swap_load_fail (key cur : String) (m : DynamicModelManager)
    (cfg : ModelConfig) (hreg : getKey? m.models key = some cfg)
    (hcur : m.current_model = some cur) (hne : cur ≠ key) :
    load_model true false key m =
      (false,
       { m with
         model_states :=
           setKey (setKey (setKey (setKey m.model_states key ModelState.loading)
             cur ModelState.unloading) cur ModelState.unloaded) key ModelState.error,
         current_model := none,
         vllm_engine := none },
       [Event.stateChange key ModelState.loading,
        Event.stateChange cur ModelState.unloading,
        Event.stateChange cur ModelState.unloaded,
        Event.engineCreate key,
        Event.stateChange key ModelState.error]) := by
  have hfast : ¬(m.current_model = some key ∧
      getKey? m.model_states key = some ModelState.loaded) := by
    rintro ⟨h1, -⟩
    rw [hcur] at h1
    exact hne (Option.some.inj h1)
  unfold load_model
  rw [hreg]
  dsimp only
  rw [if_neg hfast, hcur]
  dsimp only
  rw [if_pos hne,
    unload_current_model_ok cur
      ⟨m.models, some cur, setKey m.model_states key ModelState.loading, m.vllm_engine⟩ rfl]
  rfl

theorem ensure_not_found (u l : Bool) (t : TaskType) (m : DynamicModelManager)
    (h : m.models.find? (fun kv => kv.2.task_type == t) = none) :
    ensure_model_loaded u l t m = (false, m, []) := by
  unfold ensure_model_loaded
  rw [h]

theorem ensure_found_load (u l : Bool) (t : TaskType) (m : DynamicModelManager)
    (kc : String × ModelConfig)
    (h : m.models.find? (fun kv => kv.2.task_type == t) = some kc)
    (hcond : m.current_model ≠ some kc.1 ∨
      getKey? m.model_states kc.1 ≠ some ModelState.loaded) :
    ensure_model_loaded u l t m = load_model u l kc.1 m := by
  unfold ensure_model_loaded
  rw [h]
  dsimp only
  rw [if_pos hcond]

theorem ensure_found_fast (u l : Bool) (t : TaskType) (m : DynamicModelManager)
    (kc : String × ModelConfig)
    (h : m.models.find? (fun kv => kv.2.task_type == t) = some kc)
    (hcond : ¬(m.current_model ≠ some kc.1 ∨
      getKey? m.model_states kc.1 ≠ some ModelState.loaded)) :
    ensure_model_loaded u l t m = (true, m, []) := by
  unfold ensure_model_loaded
  rw [h]
  dsimp only
  rw [if_neg hcond]

theorem unload_preserves_LIC (u : Bool) (m : DynamicModelManager)
    (h : LoadedIsCurrent m) : LoadedIsCurrent (unload_current_model u m).2.1 := by
  rcases hcur : m.current_model with _ | cur
  · rw [unload_current_model_none u m hcur]
    exact h
  · cases u
    · rw [unload_current_model_fail cur m hcur]
      intro k hk
      simp only [getKey?_setKey] at hk
      split_ifs at hk with h1
      · simp at hk
      · exact h k hk
    · rw [unload_current_model_ok cur m hcur]
      intro k hk
      simp only [getKey?_setKey] at hk
      split_ifs at hk with h1
      · simp at hk
      · have hc := h k hk
        rw [hcur] at hc
        exact absurd (Option.some.inj hc).symm h1

theorem load_preserves_LIC (u l : Bool) (key : String) (m : DynamicModelManager)
    (h : LoadedIsCurrent m) : LoadedIsCurrent (load_model u l key m).2.1 := by
  cases hreg : getKey? m.models key with
  | none =>
      rw [load_model_unknown u l key m hreg]
      exact h
  | some cfg =>
      by_cases hfast : m.current_model = some key ∧
          getKey? m.model_states key = some ModelState.loaded
      · rw [load_model_fastpath u l key m cfg hreg hfast.1 hfast.2]
        exact h
      · rcases hcur : m.current_model with _ | cur
        · cases l
          · rw [load_model_no_swap_fail u key m cfg hreg (Or.inl hcur) hfast]
            intro k hk
            simp only [getKey?_setKey] at hk
            split_ifs at hk with h1
            · simp at hk
            · have hc := h k hk
              rw [hcur] at hc
              exact absurd hc (by simp)
          · rw [load_model_no_swap_ok u key m cfg hreg (Or.inl hcur) hfast]
            intro k hk
            simp only [getKey?_setKey] at hk
            split_ifs at hk with h1
            · subst h1
              rfl
            · have hc := h k hk
              rw [hcur] at hc
              exact absurd hc (by simp)
        · by_cases hck : cur = key
          · subst hck
            cases l
            · rw [load_model_no_swap_fail u cur m cfg hreg (Or.inr hcur) hfast]
              intro k hk
              simp only [getKey?_setKey] at hk
              split_ifs at hk with h1
              · simp at hk
              · exact h k hk
            · rw [load_model_no_swap_ok u cur m cfg hreg (Or.inr hcur) hfast]
              intro k hk
              simp only [getKey?_setKey] at hk
              split_ifs at hk with h1
              · subst h1
                rfl
              · have hc := h k hk
                rw [hcur] at hc
                exact absurd (Option.some.inj hc).symm h1
          · cases u
            · rw [load_model_swap_unload_fail l key cur m cfg hreg hcur hck]
              intro k hk
              simp only [getKey?_setKey] at hk
              split_ifs at hk with h1 h2
              · simp at hk
              · simp at hk
              · exact h k hk
            · cases l
              · rw [load_model_swap_load_fail key cur m cfg hreg hcur hck]
                intro k hk
                simp only [getKey?_setKey] at hk
                split_ifs at hk with h1 h2
                · simp at hk
                · simp at hk
                · have hc := h k hk
                  rw [hcur] at hc
                  exact absurd (Option.some.inj hc).symm h2
              · rw [load_model_swap_ok key cur m cfg hreg hcur hck]
                intro k hk
                simp only [getKey?_setKey] at hk
                split_ifs at hk with h1 h2
                · subst h1
                  rfl
                · simp at hk
                · have hc := h k hk
                  rw [hcur] at hc
                  exact absurd (Option.some.inj hc).symm h2

theorem ensure_preserves_LIC (u l : Bool) (t : TaskType) (m : DynamicModelManager)
    (h : LoadedIsCurrent m) : LoadedIsCurrent (ensure_model_loaded u l t m).2.1 := by
  cases hf : m.models.find? (fun kv => kv.2.task_type == t) with
  | none =>
      rw [ensure_not_found u l t m hf]
      exact h
  | some kc =>
      by_cases hcond : m.current_model ≠ some kc.1 ∨
          getKey? m.model_states kc.1 ≠ some ModelState.loaded
      · rw [ensure_found_load u l t m kc hf hcond]
        exact load_preserves_LIC u l kc.1 m h
      · rw [ensure_found_fast u l t m kc hf hcond]
        exact h

theorem applyOp_preserves_LIC (m : DynamicModelManager) (op : ManagerOp)
    (h : LoadedIsCurrent m) : LoadedIsCurrent (applyOp m op) := by
  cases op with
  | loadOp u l k => exact load_preserves_LIC u l k m h
  | unloadOp u => exact unload_preserves_LIC u m h
  | ensureOp u l t => exact ensure_preserves_LIC u l t m h

theorem foldl_preserves_LIC (ops : List ManagerOp) :
    ∀ m : DynamicModelManager, LoadedIsCurrent m →
      LoadedIsCurrent (ops.foldl applyOp m) := by
  induction ops with
  | nil => intro m h; simpa using h
  | cons op rest ih =>
      intro m h
      rw [List.foldl_cons]
      exact ih _ (applyOp_preserves_LIC m op h)

theorem initManager_LIC : LoadedIsCurrent initManager := by
  intro k hk
  simp only [initManager, getKey?] at hk
  split_ifs at hk <;> simp_all

/-- C1: for every reachable state of the model manager (starting from all
keys Unloaded and applying any sequence of load_model,
unload_current_model, and ensure_model_loaded calls, with or without
injected engine failures), at most one model key has state Loaded. -/
theorem capacity_invariant (ops : List ManagerOp) : AtMostOneLoaded (runOps ops) := by
  have h := foldl_preserves_LIC ops initManager initManager_LIC
  intro k1 k2 h1 h2
  have e1 := h k1 h1
  have e2 := h k2 h2
  rw [e1] at e2
  exact Option.some.inj e2

theorem getKey?_isSome_of_mem {β : Type} (l : List (String × β)) (k : String) (v : β)
    (h : (k, v) ∈ l) : ∃ c, getKey? l k = some c := by
  induction l with
  | nil => cases h
  | cons p t ih =>
      obtain ⟨a, b⟩ := p
      rcases List.mem_cons.mp h with h1 | h1
      · refine ⟨b, ?_⟩
        obtain ⟨rfl, rfl⟩ := Prod.mk.injEq .. ▸ h1
        simp [getKey?]
      · by_cases hak : a = k
        · exact ⟨b, by simp [getKey?, hak]⟩
        · obtain ⟨c, hc⟩ := ih h1
          exact ⟨c, by simp [getKey?, hak, hc]⟩

theorem joinSp_map_lower : ∀ ls : List (List Char),
    joinSp (ls.map (List.map pyLower)) = (joinSp ls).map pyLower
  | [] => rfl
  | [l] => rfl
  | l :: l' :: ls => by
      have ih := joinSp_map_lower (l' :: ls)
      simp only [List.map_cons] at ih ⊢
      simp [joinSp, ih, List.map_append, show pyLower ' ' = ' ' from rfl]

/-- C2 counterexample: from the state where `content_transformation` is
resident, a `load_model("translation")` whose internal unload fails leaves
`content_transformation` at Unloading — not Error — and returns failure
without any engine-construction attempt for `translation`; the requested
load does not proceed. -/
theorem load_after_unload_failure_counterexample :
    (load_model false true "translation" managerAfterPreload).1 = false ∧
    getKey? (load_model false true "translation" managerAfterPreload).2.1.model_states
      "content_transformation" = some ModelState.unloading ∧
    getKey? (load_model false true "translation" managerAfterPreload).2.1.model_states
      "content_transformation" ≠ some ModelState.error ∧
    Event.engineCreate "translation" ∉
      (load_model false true "translation" managerAfterPreload).2.2 := by
  decide

/-- C2 (amended): if, during `load_model` for a registered key B while
another key A is resident, the internal unload of A fails, then A's state is
left at Unloading (not Error), B's state is left at Loading, and the call
returns failure early without attempting engine construction for B. -/
theorem unload_failure_blocks_requested_load (l : Bool) (A B : String)
    (cfg : ModelConfig) (m : DynamicModelManager)
    (hreg : getKey? m.models B = some cfg)
    (hcur : m.current_model = some A) (hne : A ≠ B) :
    (load_model false l B m).1 = false ∧
    getKey? (load_model false l B m).2.1.model_states A = some ModelState.unloading ∧
    getKey? (load_model false l B m).2.1.model_states B = some ModelState.loading ∧
    Event.engineCreate B ∉ (load_model false l B m).2.2 := by
  rw [load_model_swap_unload_fail l B A m cfg hreg hcur hne]
  refine ⟨rfl, ?_, ?_, by simp⟩
  · dsimp only
    rw [getKey?_setKey, if_pos rfl]
  · dsimp only
    rw [getKey?_setKey, if_neg (fun e => hne e.symm), getKey?_setKey, if_pos rfl]

/-- Witness instantiating `unload_failure_blocks_requested_load` at the
preloaded manager. -/
theorem unload_failure_blocks_requested_load_witness :
    (load_model false true "translation" managerAfterPreload).1 = false ∧
    getKey? (load_model false true "translation" managerAfterPreload).2.1.model_states
      "content_transformation" = some ModelState.unloading ∧
    getKey? (load_model false true "translation" managerAfterPreload).2.1.model_states
      "translation" = some ModelState.loading ∧
    Event.engineCreate "translation" ∉
      (load_model false true "translation" managerAfterPreload).2.2 :=
  unload_failure_blocks_requested_load true "content_transformation" "translation"
    translation_model managerAfterPreload rfl (by decide) (by decide)

/-- C3 (code bug): the first load from a fresh manager terminates and
succeeds, but once a model is resident, `load_model` for a different key
never returns: the body holds the non-reentrant `threading.Lock` while the
swap path calls `unload_current_model`, which blocks forever re-acquiring
the same lock. `ensure_model_loaded`, which delegates to `load_model`,
deadlocks the same way. -/
theorem swap_path_deadlocks :
    (load_model_with_lock false true true "content_transformation" initManager).isSome
      = true ∧
    load_model_with_lock false true true "translation" managerAfterPreload = none ∧
    ensure_model_loaded_with_lock false true true TaskType.translation
      managerAfterPreload = none := by
  decide

/-- C4: if key A is resident and loaded and `load_model` is invoked for a
different key B, then in the event trace of that call every occurrence of
B reaching Loaded is strictly preceded by A reaching Unloaded or Error. -/
theorem eviction_before_fill (u l : Bool) (A B : String) (m : DynamicModelManager)
    (hcur : m.current_model = some A)
    (_hA : getKey? m.model_states A = some ModelState.loaded)
    (hne : A ≠ B) (pre post : List Event)
    (heq : (load_model u l B m).2.2 =
      pre ++ Event.stateChange B ModelState.loaded :: post) :
    Event.stateChange A ModelState.unloaded ∈ pre ∨
      Event.stateChange A ModelState.error ∈ pre := by
  cases hreg : getKey? m.models B with
  | none =>
      rw [load_model_unknown u l B m hreg] at heq
      simp at heq
  | some cfg =>
      cases u
      · rw [load_model_swap_unload_fail l B A m cfg hreg hcur hne] at heq
        exfalso
        have hmem : Event.stateChange B ModelState.loaded ∈
            pre ++ Event.stateChange B ModelState.loaded :: post := by simp
        rw [← heq] at hmem
        simp at hmem
      · cases l
        · rw [load_model_swap_load_fail B A m cfg hreg hcur hne] at heq
          exfalso
          have hmem : Event.stateChange B ModelState.loaded ∈
              pre ++ Event.stateChange B ModelState.loaded :: post := by simp
          rw [← heq] at hmem
          simp at hmem
        · rw [load_model_swap_ok B A m cfg hreg hcur hne] at heq
          rcases pre with _ | ⟨e1, _ | ⟨e2, _ | ⟨e3, _ | ⟨e4, _ | ⟨e5, rest⟩⟩⟩⟩⟩
          · simp at heq
          · simp at heq
          · simp at heq
          · simp at heq
          · simp only [List.cons_append, List.nil_append, List.cons.injEq] at heq
            obtain ⟨h1, h2, h3, h4, h5⟩ := heq
            left
            rw [← h3]
            simp
          · simp at heq

/-- Witness instantiating `eviction_before_fill` on the successful swap from
the preloaded manager, with the concrete four-event prefix. -/
theorem eviction_before_fill_witness :
    Event.stateChange "content_transformation" ModelState.unloaded ∈
      [Event.stateChange "translation" ModelState.loading,
       Event.stateChange "content_transformation" ModelState.unloading,
       Event.stateChange "content_transformation" ModelState.unloaded,
       Event.engineCreate "translation"] ∨
    Event.stateChange "content_transformation" ModelState.error ∈
      [Event.stateChange "translation" ModelState.loading,
       Event.stateChange "content_transformation" ModelState.unloading,
       Event.stateChange "content_transformation" ModelState.unloaded,
       Event.engineCreate "translation"] :=
  eviction_before_fill true true "content_transformation" "translation"
    managerAfterPreload (by decide) (by decide) (by decide)
    [Event.stateChange "translation" ModelState.loading,
     Event.stateChange "content_transformation" ModelState.unloading,
     Event.stateChange "content_transformation" ModelState.unloaded,
     Event.engineCreate "translation"] [] (by decide)

/-- C5 (code bug): when `ensure_model_loaded` fails for a chat-completion
request, the handler builds an `HTTPException(503)` carrying the reason, but
that exception is an `Exception`, so the blanket `except Exception` at line
223 of dynamic_server.py catches it and re-raises a generic 500; the client
receives status 500, not the 503 the claim requires. -/
theorem load_failure_returns_500 :
    (create_chat_completion true false (some "ok")
      { model := "Qwen/Qwen2.5-32B-Instruct",
        messages := [⟨"user", "переведи текст"⟩],
        task_type := some "translation" }
      initManager).1 =
    HandlerResult.failure 500
      "Ошибка генерации: 503: Не удалось загрузить модель для задачи translation" := by
  decide

/-- C6: the classifier joins the message contents, lower-cases them, counts
the occurrences of the two fixed keyword sets, returns translation only when
its count is strictly greater and the content-transformation default on a
tie — i.e. it coincides with the specification-side `classify_spec` on every
input (and, being a function, is deterministic). -/
theorem classifier_matches_spec (messages : List ChatMessage) :
    determine_task_type_from_messages messages = classify_spec messages := by
  have h1 : joinSp (messages.map fun msg => msg.content.data.map pyLower) =
      (joinSp (messages.map fun msg => msg.content.data)).map pyLower := by
    have h := joinSp_map_lower (messages.map fun msg => msg.content.data)
    rw [List.map_map] at h
    exact h
  unfold determine_task_type_from_messages classify_spec
  rw [h1]

/-- C7: if engine construction fails while loading registered key B after a
resident key A was successfully evicted, then afterwards B is in Error, A
ended in Unloaded, `current_model` is none, and the call returns failure. -/
theorem load_failure_after_eviction (A B : String) (cfg : ModelConfig)
    (m : DynamicModelManager) (hreg : getKey? m.models B = some cfg)
    (hcur : m.current_model = some A) (hne : A ≠ B) :
    (load_model true false B m).1 = false ∧
    getKey? (load_model true false B m).2.1.model_states B = some ModelState.error ∧
    getKey? (load_model true false B m).2.1.model_states A = some ModelState.unloaded ∧
    (load_model true false B m).2.1.current_model = none := by
  rw [load_model_swap_load_fail B A m cfg hreg hcur hne]
  refine ⟨rfl, ?_, ?_, rfl⟩
  · dsimp only
    rw [getKey?_setKey, if_pos rfl]
  · dsimp only
    rw [getKey?_setKey, if_neg hne, getKey?_setKey, if_pos rfl]

/-- Witness instantiating `load_failure_after_eviction`: injected load
failure for translation after the content-transformation preload. -/
theorem load_failure_after_eviction_witness :
    (load_model true false "translation" managerAfterPreload).1 = false ∧
    getKey? (load_model true false "translation" managerAfterPreload).2.1.model_states
      "translation" = some ModelState.error ∧
    getKey? (load_model true false "translation" managerAfterPreload).2.1.model_states
      "content_transformation" = some ModelState.unloaded ∧
    (load_model true false "translation" managerAfterPreload).2.1.current_model = none :=
  load_failure_after_eviction "content_transformation" "translation"
    translation_model managerAfterPreload rfl (by decide) (by decide)

/-- C8 counterexample: with the content-transformation model already
resident and loaded, two consecutive `ensure_model_loaded` calls for that
same task type both succeed but perform zero engine loads in total — not the
exactly one load the claim asserts. -/
theorem ensure_twice_zero_loads_counterexample :
    (ensure_model_loaded true true TaskType.content_transformation
      managerAfterPreload).1 = true ∧
    (ensure_model_loaded true true TaskType.content_transformation
      (ensure_model_loaded true true TaskType.content_transformation
        managerAfterPreload).2.1).1 = true ∧
    countEngineCreates
        (ensure_model_loaded true true TaskType.content_transformation
          managerAfterPreload).2.2 +
      countEngineCreates
        (ensure_model_loaded true true TaskType.content_transformation
          (ensure_model_loaded true true TaskType.content_transformation
            managerAfterPreload).2.1).2.2 = 0 := by
  decide

/-- C8 (amended): for a task type with a registered model and no injected
failures, both consecutive `ensure_model_loaded` calls succeed, the second
changes no state and performs no events at all, the first performs at most
one engine load — exactly one when the model was not already resident and
loaded (and zero when it was). -/
theorem ensure_idempotent (t : TaskType) (kc : String × ModelConfig)
    (m : DynamicModelManager)
    (hfind : m.models.find? (fun kv => kv.2.task_type == t) = some kc) :
    (ensure_model_loaded true true t m).1 = true ∧
    ensure_model_loaded true true t (ensure_model_loaded true true t m).2.1 =
      (true, (ensure_model_loaded true true t m).2.1, []) ∧
    countEngineCreates (ensure_model_loaded true true t m).2.2 ≤ 1 ∧
    ((m.current_model ≠ some kc.1 ∨
        getKey? m.model_states kc.1 ≠ some ModelState.loaded) →
      countEngineCreates (ensure_model_loaded true true t m).2.2 = 1) := by
  by_cases hcond : m.current_model ≠ some kc.1 ∨
      getKey? m.model_states kc.1 ≠ some ModelState.loaded
  · rw [ensure_found_load true true t m kc hfind hcond]
    have hfast : ¬(m.current_model = some kc.1 ∧
        getKey? m.model_states kc.1 = some ModelState.loaded) := by
      rintro ⟨h1, h2⟩
      rcases hcond with h | h
      · exact h h1
      · exact h h2
    obtain ⟨cfg, hreg⟩ :=
      getKey?_isSome_of_mem m.models kc.1 kc.2 (by
        have := List.mem_of_find?_eq_some hfind
        simpa using this)
    rcases hcur : m.current_model with _ | cur
    · rw [load_model_no_swap_ok true kc.1 m cfg hreg (Or.inl hcur) hfast]
      rw [ensure_found_fast true true t
        ⟨m.models, some kc.1,
          setKey (setKey m.model_states kc.1 ModelState.loading) kc.1 ModelState.loaded,
          some ⟨cfg.name⟩⟩ kc hfind (by
            rintro (h | h)
            · exact h rfl
            · apply h
              show getKey? (setKey (setKey m.model_states kc.1 ModelState.loading)
                kc.1 ModelState.loaded) kc.1 = some ModelState.loaded
              rw [getKey?_setKey, if_pos rfl])]
      exact ⟨rfl, rfl, le_rfl, fun _ => rfl⟩
    · by_cases hck : cur = kc.1
      · subst hck
        rw [load_model_no_swap_ok true kc.1 m cfg hreg (Or.inr hcur) hfast]
        rw [ensure_found_fast true true t
          ⟨m.models, some kc.1,
            setKey (setKey m.model_states kc.1 ModelState.loading) kc.1 ModelState.loaded,
            some ⟨cfg.name⟩⟩ kc hfind (by
              rintro (h | h)
              · exact h rfl
              · apply h
                show getKey? (setKey (setKey m.model_states kc.1 ModelState.loading)
                  kc.1 ModelState.loaded) kc.1 = some ModelState.loaded
                rw [getKey?_setKey, if_pos rfl])]
        exact ⟨rfl, rfl, le_rfl, fun _ => rfl⟩
      · rw [load_model_swap_ok kc.1 cur m cfg hreg hcur hck]
        rw [ensure_found_fast true true t
          ⟨m.models, some kc.1,
            setKey (setKey (setKey (setKey m.model_states kc.1 ModelState.loading)
              cur ModelState.unloading) cur ModelState.unloaded) kc.1 ModelState.loaded,
            some ⟨cfg.name⟩⟩ kc hfind (by
              rintro (h | h)
              · exact h rfl
              · apply h
                show getKey? (setKey (setKey (setKey (setKey m.model_states kc.1
                    ModelState.loading) cur ModelState.unloading) cur ModelState.unloaded)
                  kc.1 ModelState.loaded) kc.1 = some ModelState.loaded
                rw [getKey?_setKey, if_pos rfl])]
        exact ⟨rfl, rfl, le_rfl, fun _ => rfl⟩
  · rw [ensure_found_fast true true t m kc hfind hcond]
    rw [ensure_found_fast true true t m kc hfind hcond]
    exact ⟨rfl, rfl, by simp [countEngineCreates], fun hc => absurd hc hcond⟩

/-- Witness instantiating `ensure_idempotent` for the translation task type
on the fresh manager, where the model is not yet loaded. -/
theorem ensure_idempotent_witness :
    (ensure_model_loaded true true TaskType.translation initManager).1 = true ∧
    ensure_model_loaded true true TaskType.translation
        (ensure_model_loaded true true TaskType.translation initManager).2.1 =
      (true, (ensure_model_loaded true true TaskType.translation initManager).2.1, []) ∧
    countEngineCreates
      (ensure_model_loaded true true TaskType.translation initManager).2.2 ≤ 1 ∧
    ((initManager.current_model ≠ some "translation" ∨
        getKey? initManager.model_states "translation" ≠ some ModelState.loaded) →
      countEngineCreates
        (ensure_model_loaded true true TaskType.translation initManager).2.2 = 1) :=
  ensure_idempotent TaskType.translation ("translation", translation_model)
    initManager rfl

/-- C9: for every manager state, `load_model` with an unregistered key, and
`ensure_model_loaded` with a task type that maps to no registered model,
return failure and leave the entire manager state — `current_model`, every
`model_states` entry and the engine handle — unchanged; the same holds for
the lock-aware semantics, which returns before taking the lock. -/
theorem unknown_inputs_no_side_effects (u l : Bool) (key : String) (t : TaskType)
    (m : DynamicModelManager) :
    (getKey? m.models key = none →
      load_model u l key m = (false, m, []) ∧
      load_model_with_lock false u l key m = some (false, m)) ∧
    (m.models.find? (fun kv => kv.2.task_type == t) = none →
      ensure_model_loaded u l t m = (false, m, []) ∧
      ensure_model_loaded_with_lock false u l t m = some (false, m)) := by
  constructor
  · intro h
    refine ⟨load_model_unknown u l key m h, ?_⟩
    unfold load_model_with_lock
    rw [h]
  · intro h
    refine ⟨ensure_not_found u l t m h, ?_⟩
    unfold ensure_model_loaded_with_lock
    rw [h]

/-- Witness instantiating `unknown_inputs_no_side_effects`: an unregistered
model key against the fresh manager, and a task-type lookup against a
manager whose registry is empty. -/
theorem unknown_inputs_no_side_effects_witness :
    load_model false false "nonexistent" initManager = (false, initManager, []) ∧
    ensure_model_loaded false false TaskType.translation ⟨[], none, [], none⟩ =
      (false, ⟨[], none, [], none⟩, []) :=
  ⟨((unknown_inputs_no_side_effects false false "nonexistent" TaskType.translation
      initManager).1 (by decide)).1,
   ((unknown_inputs_no_side_effects false false "nonexistent" TaskType.translation
      ⟨[], none, [], none⟩).2 (by decide)).1⟩

/-- C10: a chat-completion request whose task_type field is present but not
a registered task-type value is never rejected for that reason: the invalid
hint is discarded and the keyword classifier over the messages decides, so
the handler behaves exactly as if no hint had been given. -/
theorem invalid_hint_uses_classifier (s : String) (hs : TaskType.ofValue s = none)
    (messages : List ChatMessage) (u l : Bool) (gen : Option String)
    (req : ChatCompletionRequest) (m : DynamicModelManager) :
    select_task_type (some s) messages = determine_task_type_from_messages messages ∧
    create_chat_completion u l gen { req with task_type := some s } m =
      create_chat_completion u l gen { req with task_type := none } m := by
  have hsel : ∀ msgs : List ChatMessage,
      select_task_type (some s) msgs = determine_task_type_from_messages msgs := by
    intro msgs
    unfold select_task_type
    dsimp only
    by_cases he : s = ""
    · rw [if_pos he]
    · rw [if_neg he, hs]
  refine ⟨hsel messages, ?_⟩
  unfold create_chat_completion
  dsimp only
  rw [hsel req.messages,
    show select_task_type none req.messages =
      determine_task_type_from_messages req.messages from rfl]

/-- Witness instantiating `invalid_hint_uses_classifier` with the invalid
hint string "summary". -/
theorem invalid_hint_uses_classifier_witness :
    select_task_type (some "summary") [⟨"user", "переведи текст"⟩] =
      determine_task_type_from_messages [⟨"user", "переведи текст"⟩] ∧
    create_chat_completion true true (some "out")
      { model := "m", messages := [⟨"user", "переведи текст"⟩],
        task_type := some "summary" } initManager =
    create_chat_completion true true (some "out")
      { model := "m", messages := [⟨"user", "переведи текст"⟩],
        task_type := none } initManager :=
  invalid_hint_uses_classifier "summary" (by decide) [⟨"user", "переведи текст"⟩]
    true true (some "out")
    { model := "m", messages := [⟨"user", "переведи текст"⟩] } initManager
